import Mathlib

set_option maxRecDepth 200000

/-!
Verification of the STM32-Othello PC client (`OthelloPC`).

The development shallowly embeds the two protocol/state modules the claims
are about:

* `OthelloPC/communication/serial_handler.py` — the frame codec
  (`calculate_checksum`, `create_packet`, `parse_packet`), the stream
  reassembler `_parse_received_data` (here `rx_loop`), and the outbound
  queue logic of `send_command`.
* `OthelloPC/game/game_state.py` — the Othello move/flip engine
  (`is_valid_move`, `make_move`, `get_valid_moves`, `_switch_player`,
  `_check_game_over`, `_update_piece_counts`, `start_new_game`) and the
  snapshot reconciliation rule `GameStateManager.update_board_state`.

Python `bytes` values are embedded as `List Nat` (each entry a byte value),
the 8×8 board as a total function `Int → Int → Piece` (every board access
in the source is bounds-guarded, so the function's values outside
`[0,8) × [0,8)` are never consulted), and wall-clock timestamps are
omitted (no claim mentions them).
-/

namespace Othello

/-! ## Frame codec (`SerialProtocol`) -/

/-- `SerialProtocol.calculate_checksum`: XOR of command, length and all
payload bytes (`checksum = command ^ length; for byte in data: checksum ^= byte`). -/
def calculate_checksum (command length : Nat) (data : List Nat) : Nat :=
  data.foldl (fun acc b => acc ^^^ b) (command ^^^ length)

/-- `SerialProtocol.create_packet`: `[STX, CMD, LEN, DATA…, CHK, ETX]` with
`STX = 0x02`, `ETX = 0x03`.  Returns `none` where the Python raises
`ValueError`: payload longer than 255, or a command value that does not fit
in a byte (`bytearray.append` rejects it). -/
def create_packet (command : Nat) (data : List Nat) : Option (List Nat) :=
  if data.length > 255 then none
  else if command > 255 then none
  else some (2 :: command :: data.length ::
    (data ++ [calculate_checksum command data.length data, 3]))

/-- `SerialProtocol.parse_packet`: returns `none` on short input, bad
header/footer, length mismatch or checksum mismatch, otherwise
`(command, payload)`. -/
def parse_packet (data : List Nat) : Option (Nat × List Nat) :=
  if data.length < 5 then none
  else if ¬(data.getD 0 0 = 2 ∧ data.getLastD 0 = 3) then none
  else if data.length ≠ 5 + data.getD 2 0 then none
  else if data.getD (3 + data.getD 2 0) 0
      ≠ calculate_checksum (data.getD 1 0) (data.getD 2 0)
          ((data.drop 3).take (data.getD 2 0)) then none
  else some (data.getD 1 0, (data.drop 3).take (data.getD 2 0))

/-! ## List helper lemmas -/

theorem getLastD_append_single (l : List Nat) (a : Nat) :
    ∀ dflt : Nat, (l ++ [a]).getLastD dflt = a := by
  intro d
  simp [List.getLastD_eq_getLast?, List.getLast?_concat]

theorem getD_append_left (l r : List Nat) (n dflt : Nat) (h : n < l.length) :
    (l ++ r).getD n dflt = l.getD n dflt := by
  induction l generalizing n with
  | nil => simp at h
  | cons b t ih =>
    cases n with
    | zero => rfl
    | succ m =>
      simp only [List.cons_append, List.getD_cons_succ]
      exact ih m (by simpa using h)

theorem getD_append_right_len (l r : List Nat) (n dflt : Nat) :
    (l ++ r).getD (l.length + n) dflt = r.getD n dflt := by
  induction l with
  | nil => simp
  | cons b t ih => simpa [Nat.succ_add] using ih

theorem set_append_left (l r : List Nat) (n x : Nat) (h : n < l.length) :
    (l ++ r).set n x = l.set n x ++ r := by
  induction l generalizing n with
  | nil => simp at h
  | cons b t ih =>
    cases n with
    | zero => rfl
    | succ m =>
      simp only [List.cons_append, List.set_cons_succ]
      rw [ih m (by simpa using h)]

theorem set_append_right_len (l r : List Nat) (n x : Nat) :
    (l ++ r).set (l.length + n) x = l ++ r.set n x := by
  induction l with
  | nil => simp
  | cons b t ih => simpa [Nat.succ_add] using ih

theorem take_len_append (l r : List Nat) : (l ++ r).take l.length = l := by
  induction l with
  | nil => rfl
  | cons b t ih => simpa using ih

theorem drop_len_append (l r : List Nat) : (l ++ r).drop l.length = r := by
  induction l with
  | nil => rfl
  | cons b t ih => simpa using ih

/-! ## XOR helper lemmas -/

theorem xor_two_pow_ne (x k : Nat) : x ^^^ 2 ^ k ≠ x := by
  intro h
  have h2 : x ^^^ (x ^^^ 2 ^ k) = x ^^^ x := congrArg (x ^^^ ·) h
  rw [← Nat.xor_assoc, Nat.xor_self, Nat.zero_xor] at h2
  exact Nat.pos_iff_ne_zero.mp (pow_pos (by norm_num) k) h2

theorem foldl_xor_shift (l : List Nat) :
    ∀ a m : Nat, l.foldl (fun acc b => acc ^^^ b) (a ^^^ m)
      = l.foldl (fun acc b => acc ^^^ b) a ^^^ m := by
  induction l with
  | nil => intro a m; rfl
  | cons b t ih =>
    intro a m
    simp only [List.foldl_cons]
    rw [show a ^^^ m ^^^ b = a ^^^ b ^^^ m by
      rw [Nat.xor_assoc, Nat.xor_assoc, Nat.xor_comm m b]]
    exact ih (a ^^^ b) m

theorem foldl_xor_set (l : List Nat) :
    ∀ (j a m : Nat), j < l.length →
      (l.set j (l.getD j 0 ^^^ m)).foldl (fun acc b => acc ^^^ b) a
        = l.foldl (fun acc b => acc ^^^ b) a ^^^ m := by
  induction l with
  | nil => intro j a m h; simp at h
  | cons b t ih =>
    intro j a m h
    cases j with
    | zero =>
      simp only [List.getD_cons_zero, List.set_cons_zero, List.foldl_cons]
      rw [show a ^^^ (b ^^^ m) = a ^^^ b ^^^ m from (Nat.xor_assoc a b m).symm]
      exact foldl_xor_shift t (a ^^^ b) m
    | succ i =>
      simp only [List.getD_cons_succ, List.set_cons_succ, List.foldl_cons]
      exact ih i (a ^^^ b) m (by simpa using h)

/-! ## Round-trip helper -/

theorem create_packet_eq (c : Nat) (d : List Nat) (hc : c ≤ 255)
    (hd : d.length ≤ 255) :
    create_packet c d
      = some (2 :: c :: d.length ::
          (d ++ [calculate_checksum c d.length d, 3])) := by
  unfold create_packet
  rw [if_neg (by omega), if_neg (by omega)]

theorem parse_create (c : Nat) (d : List Nat) :
    parse_packet (2 :: c :: d.length ::
        (d ++ [calculate_checksum c d.length d, 3])) = some (c, d) := by
  unfold parse_packet
  have hlen : (2 :: c :: d.length ::
      (d ++ [calculate_checksum c d.length d, 3])).length = 5 + d.length := by
    simp; omega
  rw [if_neg (by omega)]
  rw [if_neg (by
    simp only [not_not]
    refine ⟨rfl, ?_⟩
    have h1 : (2 : Nat) :: c :: d.length ::
        (d ++ [calculate_checksum c d.length d, 3])
        = (2 :: c :: d.length :: (d ++ [calculate_checksum c d.length d])) ++ [3] := by
      simp
    rw [h1, getLastD_append_single])]
  simp only [List.getD_cons_zero, List.getD_cons_succ]
  rw [if_neg (by rw [hlen]; simp)]
  have hdrop : ((2 : Nat) :: c :: d.length ::
      (d ++ [calculate_checksum c d.length d, 3])).drop 3
      = d ++ [calculate_checksum c d.length d, 3] := rfl
  rw [hdrop]
  have htake : (d ++ [calculate_checksum c d.length d, 3]).take d.length = d := by
    have := take_len_append d [calculate_checksum c d.length d, 3]
    simpa using this
  rw [htake]
  have hget : ((2 : Nat) :: c :: d.length ::
      (d ++ [calculate_checksum c d.length d, 3])).getD (3 + d.length) 0
      = calculate_checksum c d.length d := by
    have : ((2 : Nat) :: c :: d.length ::
        (d ++ [calculate_checksum c d.length d, 3])).getD (3 + d.length) 0
        = (d ++ [calculate_checksum c d.length d, 3]).getD d.length 0 := by
      rw [show 3 + d.length = d.length + 3 by omega]
      rfl
    rw [this]
    have := getD_append_right_len d [calculate_checksum c d.length d, 3] 0 0
    simpa using this
  rw [hget, if_neg (by simp)]

/-- Claim C2: for every command byte in `[0,255]` and every payload of length
at most 255, `parse_packet (create_packet command payload)` returns exactly
the original `(command, payload)` pair. -/
theorem C2_roundtrip (c : Nat) (d : List Nat) (hc : c ≤ 255)
    (hd : d.length ≤ 255) :
    (create_packet c d).bind parse_packet = some (c, d) := by
  rw [create_packet_eq c d hc hd]
  exact parse_create c d

/-! ## Stream reassembler (`SerialHandler._parse_received_data`)

The per-call statistics the loop touches are carried explicitly:
`errors` is `stats['errors']`, `received` is `stats['packets_received']`,
`dropped` accumulates the garbage-byte counts the loop logs when it finds
a header preceded by garbage, and `frames` collects the decoded frames
handed to the callback. -/

/-- `bytearray.find(PACKET_HEADER)`: index of the first `0x02` byte. -/
def findHeader : List Nat → Option Nat
  | [] => none
  | b :: rest => if b = 2 then some 0 else (findHeader rest).map (· + 1)

structure RxOut where
  buffer : List Nat
  errors : Nat
  received : Nat
  dropped : Nat
  frames : List (Nat × List Nat)
deriving DecidableEq

/-- `SerialHandler._parse_received_data`: the `while len(buffer) >= 5` loop.
Each iteration finds the next header (clearing the buffer and stopping if
none), drops garbage before it, waits for more data when the buffer holds
less than a full frame, otherwise slices off one candidate frame, parses
it (counting a decoded frame or an error) and continues. -/
def rx_loop (buffer : List Nat) (errors received dropped : Nat)
    (frames : List (Nat × List Nat)) : RxOut :=
  if h5 : buffer.length < 5 then ⟨buffer, errors, received, dropped, frames⟩
  else
    match findHeader buffer with
    | none => ⟨[], errors, received, dropped, frames⟩
    | some idx =>
      let buf := buffer.drop idx
      if buf.length < 3 then ⟨buf, errors, received, dropped + idx, frames⟩
      else
        let data_len := buf.getD 2 0
        if buf.length < 5 + data_len then
          ⟨buf, errors, received, dropped + idx, frames⟩
        else
          let pkt := buf.take (5 + data_len)
          let rest := buf.drop (5 + data_len)
          match parse_packet pkt with
          | some (cmd, d) =>
            rx_loop rest errors (received + 1) (dropped + idx)
              (frames ++ [(cmd, d)])
          | none => rx_loop rest (errors + 1) received (dropped + idx) frames
termination_by buffer.length
decreasing_by
  all_goals simp only [List.length_drop]; omega

/-! ## Outbound queue (`SerialHandler.send_command`)

`__init__` creates `self.send_queue = Queue()`: the Python `queue.Queue`
default `maxsize` is 0, which means unbounded — `put(packet, timeout=1.0)`
can then never raise `Full`. -/

/-- The `maxsize` the source passes to `Queue()` (none, i.e. Python's
default `0` = unbounded). -/
def send_queue_maxsize : Nat := 0

/-- `Queue.put` semantics: succeeds when the queue is unbounded
(`maxsize = 0`) or not yet full. -/
def queue_put_ok (qlen : Nat) : Bool :=
  decide (send_queue_maxsize = 0 ∨ qlen < send_queue_maxsize)

/-- `SerialHandler.send_command`: encodes the packet and enqueues it;
returns `False` when `create_packet` raises (oversized payload or command),
and would return `False` if `put` raised `Full` after its bounded wait. -/
def send_command (q : List (List Nat)) (command : Nat) (data : List Nat) :
    Bool × List (List Nat) :=
  match create_packet command data with
  | none => (false, q)
  | some pkt => if queue_put_ok q.length then (true, q ++ [pkt]) else (false, q)

theorem create_packet_some (c : Nat) (d : List Nat) (pkt : List Nat)
    (hp : create_packet c d = some pkt) :
    d.length ≤ 255 ∧ c ≤ 255 ∧
      pkt = 2 :: c :: d.length ::
        (d ++ [calculate_checksum c d.length d, 3]) := by
  unfold create_packet at hp
  by_cases h1 : d.length > 255
  · simp [h1] at hp
  · by_cases h2 : c > 255
    · simp [h1, h2] at hp
    · simp [h1, h2] at hp
      exact ⟨by omega, by omega, hp.symm⟩

theorem findHeader_eq_none (l : List Nat) (h : 2 ∉ l) : findHeader l = none := by
  induction l with
  | nil => rfl
  | cons b t ih =>
    simp only [List.mem_cons, not_or] at h
    have hb : ¬ b = 2 := fun hb => h.1 hb.symm
    simp [findHeader, hb, ih h.2]

/-- Claim C6: three garbage bytes followed by a well-formed frame yield
exactly one decoded frame equal to `(command, payload)`; the three garbage
bytes are counted as dropped and the errors counter is untouched. -/
theorem C6_resync (c : Nat) (d : List Nat) (pkt : List Nat)
    (hp : create_packet c d = some pkt) (e r dr : Nat)
    (fr : List (Nat × List Nat)) :
    rx_loop (255 :: 255 :: 255 :: pkt) e r dr fr
      = ⟨[], e, r + 1, dr + 3, fr ++ [(c, d)]⟩ := by
  obtain ⟨hL, hc, rfl⟩ := create_packet_some c d pkt hp
  have h1 : findHeader (255 :: 255 :: 255 :: 2 :: c :: d.length ::
      (d ++ [calculate_checksum c d.length d, 3])) = some 3 := by
    simp [findHeader]
  have hlen2 : (2 :: c :: d.length ::
      (d ++ [calculate_checksum c d.length d, 3])).length = 5 + d.length := by
    simp; omega
  have htake : (2 :: c :: d.length ::
      (d ++ [calculate_checksum c d.length d, 3])).take (5 + d.length)
      = 2 :: c :: d.length :: (d ++ [calculate_checksum c d.length d, 3]) := by
    rw [← hlen2]; exact List.take_length _
  have hdrop : (2 :: c :: d.length ::
      (d ++ [calculate_checksum c d.length d, 3])).drop (5 + d.length)
      = [] := by
    rw [← hlen2]; exact List.drop_length _
  rw [rx_loop, dif_neg (by simp only [List.length_cons, List.length_append]; omega),
    h1]
  simp only [List.drop_succ_cons, List.drop_zero, List.getD_cons_succ,
    List.getD_cons_zero, hlen2, htake, hdrop]
  rw [if_neg (by omega), if_neg (by omega), parse_create]
  show rx_loop [] e (r + 1) (dr + 3) (fr ++ [(c, d)]) = _
  rw [rx_loop, dif_pos (by simp)]

/-- Witness for C6 with command `0x05`, payload `[0x09]`
(checksum `5 ^ 1 ^ 9 = 13`). -/
theorem C6_resync_witness :
    create_packet 5 [9] = some [2, 5, 1, 9, 13, 3] ∧
      rx_loop (255 :: 255 :: 255 :: [2, 5, 1, 9, 13, 3]) 0 0 0 []
        = ⟨[], 0, 0 + 1, 0 + 3, [] ++ [(5, [9])]⟩ :=
  ⟨by decide, C6_resync 5 [9] [2, 5, 1, 9, 13, 3] (by decide) 0 0 0 []⟩

/-- Claim C9 (amended): a buffer of at least 5 bytes with no `0x02` header
byte is dropped whole and the loop stops, but `stats['errors']` is not
incremented (the source only logs a warning on this path). -/
theorem C9_amended_no_header_drops_silently (buf : List Nat)
    (e r dr : Nat) (fr : List (Nat × List Nat))
    (h5 : 5 ≤ buf.length) (hnh : 2 ∉ buf) :
    rx_loop buf e r dr fr = ⟨[], e, r, dr, fr⟩ := by
  rw [rx_loop, dif_neg (by omega), findHeader_eq_none buf hnh]

/-- Counterexample to claim C9 as stated: on a 5-byte header-free buffer the
whole result (buffer emptied, frames unchanged) shows `errors` stays `0`
instead of being incremented to `1`. -/
theorem C9_counterexample_errors_not_incremented :
    rx_loop [255, 255, 255, 255, 255] 0 0 0 [] = ⟨[], 0, 0, 0, []⟩ := by
  rw [rx_loop]
  simp [findHeader]

/-- Witness for the amended C9 on a different concrete buffer. -/
theorem C9_amended_witness :
    5 ≤ ([250, 250, 250, 250, 250, 250] : List Nat).length ∧
      2 ∉ ([250, 250, 250, 250, 250, 250] : List Nat) ∧
      rx_loop [250, 250, 250, 250, 250, 250] 1 2 3 [(7, [])]
        = ⟨[], 1, 2, 3, [(7, [])]⟩ :=
  ⟨by decide, by decide,
    C9_amended_no_header_drops_silently _ 1 2 3 [(7, [])] (by decide) (by decide)⟩

/-- Claim C4 (amended): the outbound queue is unbounded — whenever
`create_packet` succeeds, `send_command` enqueues and returns `True`
regardless of how many frames the queue already holds. -/
theorem C4_amended_queue_unbounded (q : List (List Nat)) (c : Nat)
    (d : List Nat) (pkt : List Nat) (hp : create_packet c d = some pkt) :
    send_command q c d = (true, q ++ [pkt]) := by
  unfold send_command
  rw [hp]
  simp [queue_put_ok, send_queue_maxsize]

set_option maxRecDepth 8000 in
/-- Counterexample to claim C4 as stated: the queue is created with
`maxsize = 0` (unbounded), and a `send_command` call with 1000 frames
already queued still succeeds and grows the queue to 1001. -/
theorem C4_counterexample_no_capacity :
    send_queue_maxsize = 0 ∧
      (send_command (List.replicate 1000 [2, 7, 0, 7, 3]) 7 []).1 = true ∧
      (send_command (List.replicate 1000 [2, 7, 0, 7, 3]) 7 []).2.length
        = 1001 := by
  refine ⟨rfl, ?_, ?_⟩ <;> decide

/-- Witness for the amended C4 on a small concrete queue. -/
theorem C4_amended_witness :
    create_packet 7 [] = some [2, 7, 0, 7, 3] ∧
      send_command [[2, 7, 0, 7, 3]] 7 []
        = (true, [[2, 7, 0, 7, 3]] ++ [[2, 7, 0, 7, 3]]) :=
  ⟨by decide, C4_amended_queue_unbounded [[2, 7, 0, 7, 3]] 7 [] _ (by decide)⟩

theorem parse_packet_none_of (data : List Nat)
    (h : data.getD 0 0 ≠ 2 ∨ data.getLastD 0 ≠ 3
      ∨ data.length ≠ 5 + data.getD 2 0
      ∨ data.getD (3 + data.getD 2 0) 0
          ≠ calculate_checksum (data.getD 1 0) (data.getD 2 0)
              ((data.drop 3).take (data.getD 2 0))) :
    parse_packet data = none := by
  unfold parse_packet
  split_ifs with h1 h2 h3 h4 <;> first | rfl | tauto

theorem calculate_checksum_cmd_flip (c L m : Nat) (d : List Nat) :
    calculate_checksum (c ^^^ m) L d = calculate_checksum c L d ^^^ m := by
  unfold calculate_checksum
  rw [show c ^^^ m ^^^ L = c ^^^ L ^^^ m by
    rw [Nat.xor_assoc, Nat.xor_assoc, Nat.xor_comm m L]]
  exact foldl_xor_shift d (c ^^^ L) m

theorem calculate_checksum_data_flip (c L m j : Nat) (d : List Nat)
    (hj : j < d.length) :
    calculate_checksum c L (d.set j (d.getD j 0 ^^^ m))
      = calculate_checksum c L d ^^^ m :=
  foldl_xor_set d j (c ^^^ L) m hj

/-- Claim C7: flipping any single bit of any byte of a well-formed encoded
frame other than the checksum byte (position `3 + len(payload)`) makes
`parse_packet` reject the frame. -/
theorem C7_bitflip_rejected (c : Nat) (d : List Nat) (pkt : List Nat)
    (hp : create_packet c d = some pkt) (i k : Nat) (hi : i < pkt.length)
    (hik : i ≠ 3 + d.length) (hk : k < 8) :
    parse_packet (pkt.set i (pkt.getD i 0 ^^^ 2 ^ k)) = none := by
  obtain ⟨hL, hc, rfl⟩ := create_packet_some c d pkt hp
  have hplen : (2 :: c :: d.length ::
      (d ++ [calculate_checksum c d.length d, 3])).length = 5 + d.length := by
    simp; omega
  rw [hplen] at hi
  by_cases hi3 : i < 3
  · interval_cases i
    · -- header byte flipped
      apply parse_packet_none_of
      exact Or.inl (by simpa using xor_two_pow_ne 2 k)
    · -- command byte flipped: checksum check fails
      apply parse_packet_none_of
      refine Or.inr (Or.inr (Or.inr ?_))
      have hset : ((2 : Nat) :: c :: d.length ::
          (d ++ [calculate_checksum c d.length d, 3])).set 1
            (((2 : Nat) :: c :: d.length ::
              (d ++ [calculate_checksum c d.length d, 3])).getD 1 0 ^^^ 2 ^ k)
          = 2 :: (c ^^^ 2 ^ k) :: d.length ::
            (d ++ [calculate_checksum c d.length d, 3]) := rfl
      rw [hset]
      have hg : ((2 : Nat) :: (c ^^^ 2 ^ k) :: d.length ::
          (d ++ [calculate_checksum c d.length d, 3])).getD 2 0 = d.length := rfl
      rw [hg]
      have hstored : ((2 : Nat) :: (c ^^^ 2 ^ k) :: d.length ::
          (d ++ [calculate_checksum c d.length d, 3])).getD (3 + d.length) 0
          = calculate_checksum c d.length d := by
        have e1 : ((2 : Nat) :: (c ^^^ 2 ^ k) :: d.length ::
            (d ++ [calculate_checksum c d.length d, 3]))
            = [2, c ^^^ 2 ^ k, d.length]
              ++ (d ++ [calculate_checksum c d.length d, 3]) := rfl
        rw [e1]
        have e2 := getD_append_right_len [2, c ^^^ 2 ^ k, d.length]
          (d ++ [calculate_checksum c d.length d, 3]) d.length 0
        simp only [List.length_cons, List.length_nil] at e2
        rw [e2]
        have e3 := getD_append_right_len d
          [calculate_checksum c d.length d, 3] 0 0
        simpa using e3
      rw [hstored]
      have hpd : ((((2 : Nat) :: (c ^^^ 2 ^ k) :: d.length ::
          (d ++ [calculate_checksum c d.length d, 3])).drop 3).take d.length)
          = d := by
        have : ((2 : Nat) :: (c ^^^ 2 ^ k) :: d.length ::
            (d ++ [calculate_checksum c d.length d, 3])).drop 3
            = d ++ [calculate_checksum c d.length d, 3] := rfl
        rw [this, take_len_append]
      rw [hpd]
      have hcomp : calculate_checksum
          (((2 : Nat) :: (c ^^^ 2 ^ k) :: d.length ::
            (d ++ [calculate_checksum c d.length d, 3])).getD 1 0)
          d.length d = calculate_checksum c d.length d ^^^ 2 ^ k := by
        have : ((2 : Nat) :: (c ^^^ 2 ^ k) :: d.length ::
            (d ++ [calculate_checksum c d.length d, 3])).getD 1 0
            = c ^^^ 2 ^ k := rfl
        rw [this, calculate_checksum_cmd_flip]
      rw [hcomp]
      exact Ne.symm (xor_two_pow_ne (calculate_checksum c d.length d) k)
    · -- length byte flipped: declared length no longer matches
      apply parse_packet_none_of
      refine Or.inr (Or.inr (Or.inl ?_))
      have hset : ((2 : Nat) :: c :: d.length ::
          (d ++ [calculate_checksum c d.length d, 3])).set 2
            (((2 : Nat) :: c :: d.length ::
              (d ++ [calculate_checksum c d.length d, 3])).getD 2 0 ^^^ 2 ^ k)
          = 2 :: c :: (d.length ^^^ 2 ^ k) ::
            (d ++ [calculate_checksum c d.length d, 3]) := rfl
      rw [hset]
      have h1 : ((2 : Nat) :: c :: (d.length ^^^ 2 ^ k) ::
          (d ++ [calculate_checksum c d.length d, 3])).length
          = 5 + d.length := by simp; omega
      have h2 : ((2 : Nat) :: c :: (d.length ^^^ 2 ^ k) ::
          (d ++ [calculate_checksum c d.length d, 3])).getD 2 0
          = d.length ^^^ 2 ^ k := rfl
      rw [h1, h2]
      have := xor_two_pow_ne d.length k
      omega
  · -- i = j + 3 in the payload / footer region
    obtain ⟨j, rfl⟩ : ∃ j, i = j + 3 := ⟨i - 3, by omega⟩
    have hsplit : ((2 : Nat) :: c :: d.length ::
        (d ++ [calculate_checksum c d.length d, 3]))
        = [2, c, d.length] ++ (d ++ [calculate_checksum c d.length d, 3]) := rfl
    have hgd : ((2 : Nat) :: c :: d.length ::
        (d ++ [calculate_checksum c d.length d, 3])).getD (j + 3) 0
        = (d ++ [calculate_checksum c d.length d, 3]).getD j 0 := by
      rw [hsplit, Nat.add_comm j 3]
      have := getD_append_right_len [2, c, d.length]
        (d ++ [calculate_checksum c d.length d, 3]) j 0
      simpa using this
    have hst : ((2 : Nat) :: c :: d.length ::
        (d ++ [calculate_checksum c d.length d, 3])).set (j + 3)
          (((2 : Nat) :: c :: d.length ::
            (d ++ [calculate_checksum c d.length d, 3])).getD (j + 3) 0 ^^^ 2 ^ k)
        = [2, c, d.length] ++ ((d ++ [calculate_checksum c d.length d, 3]).set j
            ((d ++ [calculate_checksum c d.length d, 3]).getD j 0 ^^^ 2 ^ k)) := by
      rw [hgd, hsplit, Nat.add_comm j 3]
      have := set_append_right_len [2, c, d.length]
        (d ++ [calculate_checksum c d.length d, 3]) j
        ((d ++ [calculate_checksum c d.length d, 3]).getD j 0 ^^^ 2 ^ k)
      simpa using this
    rw [hst]
    by_cases hjL : j < d.length
    · -- payload byte flipped: checksum check fails
      have hobs : (d ++ [calculate_checksum c d.length d, 3]).getD j 0
          = d.getD j 0 := getD_append_left _ _ j 0 hjL
      have hsetj : (d ++ [calculate_checksum c d.length d, 3]).set j
          ((d ++ [calculate_checksum c d.length d, 3]).getD j 0 ^^^ 2 ^ k)
          = (d.set j (d.getD j 0 ^^^ 2 ^ k))
            ++ [calculate_checksum c d.length d, 3] := by
        rw [hobs]; exact set_append_left _ _ j _ hjL
      rw [hsetj]
      apply parse_packet_none_of
      refine Or.inr (Or.inr (Or.inr ?_))
      have hlen2 : (d.set j (d.getD j 0 ^^^ 2 ^ k)).length = d.length :=
        List.length_set d j _
      have hg2 : (([2, c, d.length] : List Nat)
          ++ ((d.set j (d.getD j 0 ^^^ 2 ^ k))
            ++ [calculate_checksum c d.length d, 3])).getD 2 0 = d.length := rfl
      rw [hg2]
      have hstored : (([2, c, d.length] : List Nat)
          ++ ((d.set j (d.getD j 0 ^^^ 2 ^ k))
            ++ [calculate_checksum c d.length d, 3])).getD (3 + d.length) 0
          = calculate_checksum c d.length d := by
        have e2 := getD_append_right_len [2, c, d.length]
          ((d.set j (d.getD j 0 ^^^ 2 ^ k))
            ++ [calculate_checksum c d.length d, 3]) d.length 0
        simp only [List.length_cons, List.length_nil] at e2
        rw [e2]
        have e3 := getD_append_right_len (d.set j (d.getD j 0 ^^^ 2 ^ k))
          [calculate_checksum c d.length d, 3] 0 0
        rw [hlen2] at e3
        simpa using e3
      rw [hstored]
      have hpd : ((((([2, c, d.length] : List Nat)
          ++ ((d.set j (d.getD j 0 ^^^ 2 ^ k))
            ++ [calculate_checksum c d.length d, 3]))).drop 3).take d.length)
          = d.set j (d.getD j 0 ^^^ 2 ^ k) := by
        have e1 : (([2, c, d.length] : List Nat)
            ++ ((d.set j (d.getD j 0 ^^^ 2 ^ k))
              ++ [calculate_checksum c d.length d, 3])).drop 3
            = (d.set j (d.getD j 0 ^^^ 2 ^ k))
              ++ [calculate_checksum c d.length d, 3] := rfl
        rw [e1, ← hlen2, take_len_append]
      rw [hpd]
      have hcmd : (([2, c, d.length] : List Nat)
          ++ ((d.set j (d.getD j 0 ^^^ 2 ^ k))
            ++ [calculate_checksum c d.length d, 3])).getD 1 0 = c := rfl
      rw [hcmd, calculate_checksum_data_flip c d.length (2 ^ k) j d hjL]
      exact Ne.symm (xor_two_pow_ne (calculate_checksum c d.length d) k)
    · -- footer byte flipped
      have hj : j = d.length + 1 := by omega
      subst hj
      have hobs : (d ++ [calculate_checksum c d.length d, 3]).getD
          (d.length + 1) 0 = 3 := by
        have := getD_append_right_len d [calculate_checksum c d.length d, 3] 1 0
        simpa using this
      have hsetj : (d ++ [calculate_checksum c d.length d, 3]).set
          (d.length + 1)
          ((d ++ [calculate_checksum c d.length d, 3]).getD (d.length + 1) 0
            ^^^ 2 ^ k)
          = d ++ [calculate_checksum c d.length d, 3 ^^^ 2 ^ k] := by
        rw [hobs]
        have := set_append_right_len d [calculate_checksum c d.length d, 3] 1
          (3 ^^^ 2 ^ k)
        simpa using this
      rw [hsetj]
      apply parse_packet_none_of
      refine Or.inr (Or.inl ?_)
      have e1 : (([2, c, d.length] : List Nat)
          ++ (d ++ [calculate_checksum c d.length d, 3 ^^^ 2 ^ k]))
          = (2 :: c :: d.length :: (d ++ [calculate_checksum c d.length d]))
            ++ [3 ^^^ 2 ^ k] := by simp
      rw [e1, getLastD_append_single]
      exact xor_two_pow_ne 3 k

/-- Witness for C7: flipping bit 0 of the header byte of the frame
`[2,2,3,2,4,1,6,3]` makes the parser reject it. -/
theorem C7_bitflip_witness :
    create_packet 2 [2, 4, 1] = some [2, 2, 3, 2, 4, 1, 6, 3] ∧
      parse_packet (([2, 2, 3, 2, 4, 1, 6, 3] : List Nat).set 0
        (([2, 2, 3, 2, 4, 1, 6, 3] : List Nat).getD 0 0 ^^^ 2 ^ 0)) = none :=
  ⟨by decide, C7_bitflip_rejected 2 [2, 4, 1] [2, 2, 3, 2, 4, 1, 6, 3]
    (by decide) 0 0 (by decide) (by decide) (by decide)⟩

/-- Witness for C2 at the spec's concrete wire vector
`encode(0x02, [0x02,0x04,0x01]) = 02 02 03 02 04 01 06 03`. -/
theorem C2_roundtrip_witness :
    (2 : Nat) ≤ 255 ∧ ([2, 4, 1] : List Nat).length ≤ 255 ∧
      (create_packet 2 [2, 4, 1]).bind parse_packet = some (2, [2, 4, 1]) :=
  ⟨by decide, by decide, C2_roundtrip 2 [2, 4, 1] (by decide) (by decide)⟩

/-! ## Game model (`game_state.py`)

The `PieceType` and `GameStatus` enums, the `Move` record (without its
wall-clock timestamp) and the `GameState` object (without its wall-clock
`game_start_time`/`game_end_time`).  The board is a total function
`Int → Int → Piece`: every read or write in the source is guarded by
`0 <= r < 8 and 0 <= c < 8`, so values outside that square are never
consulted, and coordinates are `Int` because the direction walks form
`row + dx` with `dx ∈ {-1,0,1}`. -/

inductive Piece where
  | EMPTY
  | BLACK
  | WHITE
deriving DecidableEq

inductive GameStatus where
  | PLAYING
  | BLACK_WIN
  | WHITE_WIN
  | DRAW
  | NOT_STARTED
deriving DecidableEq

structure MoveRec where
  row : Int
  col : Int
  player : Piece
  flipped_count : Nat
deriving DecidableEq

def Board : Type := Int → Int → Piece

def setCell (b : Board) (r c : Int) (p : Piece) : Board :=
  fun r' c' => if r' = r ∧ c' = c then p else b r' c'

structure GameState where
  board : Board
  current_player : Piece
  black_count : Nat
  white_count : Nat
  status : GameStatus
  move_count : Nat
  moves_history : List MoveRec
  game_mode : Nat

/-- `GameState.__init__`. -/
def initial_game : GameState :=
  { board := fun _ _ => Piece.EMPTY
    current_player := Piece.BLACK
    black_count := 0
    white_count := 0
    status := GameStatus.NOT_STARTED
    move_count := 0
    moves_history := []
    game_mode := 0 }

/-- The board `start_new_game` builds: cleared, then Black at `(3,3)` and
`(4,4)`, White at `(3,4)` and `(4,3)`. -/
def start_board : Board :=
  setCell (setCell (setCell (setCell
    (fun _ _ => Piece.EMPTY) 3 3 Piece.BLACK) 4 4 Piece.BLACK)
    3 4 Piece.WHITE) 4 3 Piece.WHITE

/-- `GameState.start_new_game`: clears the board, places the four initial
pieces and resets player, counts, status, move counter and history.
`game_mode` is untouched. -/
def start_new_game (g : GameState) : GameState :=
  { g with
    board := start_board
    current_player := Piece.BLACK
    black_count := 2
    white_count := 2
    status := GameStatus.PLAYING
    move_count := 0
    moves_history := [] }

/-- The `opponent` local of the direction helpers:
`WHITE if player == BLACK else BLACK`. -/
def opponentOf (p : Piece) : Piece :=
  if p = Piece.BLACK then Piece.WHITE else Piece.BLACK

/-- The 8 direction vectors, in source order. -/
def directions : List (Int × Int) :=
  [(-1, -1), (-1, 0), (-1, 1), (0, -1), (0, 1), (1, -1), (1, 0), (1, 1)]

/-- The `while` walk of `GameState._can_flip_in_direction`: step through
in-bounds cells; an opponent cell records `found_opponent` and continues; a
same-player cell returns `found_opponent`; an empty cell or the board edge
ends the walk with `False`.  The fuel bound 8 is never reached from an
in-bounds starting square: a ray from such a square meets at most 7
in-bounds cells before leaving the board. -/
def can_flip_walk (b : Board) (player opp : Piece) (r c dx dy : Int)
    (found : Bool) : Nat → Bool
  | 0 => false
  | fuel + 1 =>
    if 0 ≤ r ∧ r < 8 ∧ 0 ≤ c ∧ c < 8 then
      if b r c = opp then can_flip_walk b player opp (r + dx) (c + dy) dx dy true fuel
      else if b r c = player then found
      else false
    else false

/-- `GameState._can_flip_in_direction`. -/
def can_flip_in_direction (b : Board) (row col dx dy : Int)
    (player : Piece) : Bool :=
  can_flip_walk b player (opponentOf player) (row + dx) (col + dy) dx dy false 8

/-- `GameState.is_valid_move`: bounds check, emptiness check, the cheat-mode
shortcut (`game_mode == 4` accepts any empty in-bounds cell, before the
status check), the `PLAYING` status check, and the 8-direction scan. -/
def is_valid_move (g : GameState) (row col : Int) (player : Piece) : Bool :=
  if ¬(0 ≤ row ∧ row < 8 ∧ 0 ≤ col ∧ col < 8) then false
  else if g.board row col ≠ Piece.EMPTY then false
  else if g.game_mode = 4 then true
  else if g.status ≠ GameStatus.PLAYING then false
  else directions.any (fun d => can_flip_in_direction g.board row col d.1 d.2 player)

/-- `GameState.get_valid_moves`: row-major enumeration of the cells
`is_valid_move` accepts. -/
def get_valid_moves (g : GameState) (player : Piece) : List (Int × Int) :=
  (List.range 8).flatMap (fun r =>
    (List.range 8).filterMap (fun c =>
      if is_valid_move g (r : Int) (c : Int) player then
        some ((r : Int), (c : Int))
      else none))

/-- The opponent-collecting `while` loop of
`GameState._flip_pieces_in_direction`: returns the run of consecutive
opponent cells starting at `(r,c)` and the first position after the run
(where the loop stopped).  Fuel as in `can_flip_walk`. -/
def flip_run (b : Board) (opp : Piece) (r c dx dy : Int) :
    Nat → List (Int × Int) × Int × Int
  | 0 => ([], r, c)
  | fuel + 1 =>
    if (0 ≤ r ∧ r < 8 ∧ 0 ≤ c ∧ c < 8) ∧ b r c = opp then
      let rest := flip_run b opp (r + dx) (c + dy) dx dy fuel
      ((r, c) :: rest.1, rest.2)
    else ([], r, c)

/-- `GameState._flip_pieces_in_direction`: collect the opponent run, and if
it ends in bounds on a same-player cell and is non-empty, flip every cell of
the run to `player`, returning the new board and the flip count. -/
def flip_pieces_in_direction (b : Board) (row col dx dy : Int)
    (player : Piece) : Board × Nat :=
  let w := flip_run b (opponentOf player) (row + dx) (col + dy) dx dy 8
  if (0 ≤ w.2.1 ∧ w.2.1 < 8 ∧ 0 ≤ w.2.2 ∧ w.2.2 < 8)
      ∧ b w.2.1 w.2.2 = player ∧ w.1 ≠ [] then
    (w.1.foldl (fun acc rc => setCell acc rc.1 rc.2 player) b, w.1.length)
  else (b, 0)

/-- The direction loop of `GameState.make_move`, threading the board and
summing the per-direction flip counts. -/
def flip_all_directions (b : Board) (row col : Int) (player : Piece) :
    Board × Nat :=
  directions.foldl (fun acc d =>
    let r := flip_pieces_in_direction acc.1 row col d.1 d.2 player
    (r.1, acc.2 + r.2)) (b, 0)

/-- The board cell a flat row-major index `n = 8*row + col` denotes. -/
def cellAt (b : Board) (n : Nat) : Piece :=
  b ((n / 8 : Nat) : Int) ((n % 8 : Nat) : Int)

/-- `GameState._update_piece_counts`: recount both colours from the board.
The source's row/column double loop is flattened to the 64 cell indices
`n = 8*row + col` in the same row-major order. -/
def countPieces (b : Board) (p : Piece) : Nat :=
  ((List.range 64).filter (fun n => cellAt b n = p)).length

def update_piece_counts (g : GameState) : GameState :=
  { g with
    black_count := countPieces g.board Piece.BLACK
    white_count := countPieces g.board Piece.WHITE }

/-- `GameState._end_game` (without the wall-clock `game_end_time`). -/
def end_game (g : GameState) : GameState :=
  { g with status :=
      if g.black_count > g.white_count then GameStatus.BLACK_WIN
      else if g.white_count > g.black_count then GameStatus.WHITE_WIN
      else GameStatus.DRAW }

/-- `GameState._switch_player`. -/
def switch_player (g : GameState) : GameState :=
  if get_valid_moves g (if g.current_player = Piece.BLACK then Piece.WHITE
      else Piece.BLACK) ≠ [] then
    { g with current_player :=
        if g.current_player = Piece.BLACK then Piece.WHITE else Piece.BLACK }
  else if get_valid_moves g g.current_player ≠ [] then g
  else end_game g

/-- `GameState._check_game_over`. -/
def check_game_over (g : GameState) : GameState :=
  if g.black_count + g.white_count = 64 then end_game g
  else if get_valid_moves g Piece.BLACK = [] ∧ get_valid_moves g Piece.WHITE = []
    then end_game g
  else g

/-- `GameState.make_move`: reject invalid moves with no state change;
otherwise place the piece, flip in all 8 directions unless in cheat mode
(`game_mode == 4`), append the move record, bump `move_count`, recount the
pieces, switch player unless in cheat mode, and run the game-over check. -/
def make_move (g : GameState) (row col : Int) (player : Piece) :
    Bool × GameState :=
  if ¬ is_valid_move g row col player then (false, g)
  else
    let b1 := setCell g.board row col player
    let fl := if g.game_mode ≠ 4 then flip_all_directions b1 row col player
              else (b1, 0)
    let g1 := { g with
      board := fl.1
      moves_history := g.moves_history ++ [⟨row, col, player, fl.2⟩]
      move_count := g.move_count + 1 }
    let g2 := update_piece_counts g1
    let g3 := if g.game_mode ≠ 4 then switch_player g2 else g2
    (true, check_game_over g3)

/-- `GameStateManager.start_new_game`: build a fresh `GameState` carrying
over the old `game_mode`, run `start_new_game`, and in cheat mode wipe the
board back to empty with zero counts. -/
def manager_start_new_game (g : GameState) : GameState :=
  let g1 := start_new_game { initial_game with game_mode := g.game_mode }
  if g.game_mode = 4 then
    { g1 with board := fun _ _ => Piece.EMPTY, black_count := 0, white_count := 0 }
  else g1

/-! ## Snapshot reconciliation (`GameStateManager.update_board_state`) -/

/-- `PieceType(v)`: `none` where the Python enum constructor raises
`ValueError`. -/
def pieceOfByte (v : Nat) : Option Piece :=
  if v = 0 then some Piece.EMPTY
  else if v = 1 then some Piece.BLACK
  else if v = 2 then some Piece.WHITE
  else none

/-- The board-decoding loop of `update_board_state`, applied to cell indices
`0 ≤ i < n` in order: each byte is decoded and written to
`board[i // 8][i % 8]`.  The `Bool` is `false` once `PieceType` has raised;
the cells written before the exception keep their new values (the Python
mutates the live board in place inside the `try`). -/
def applyBoardBytes (b : Board) (bd : List Nat) : Nat → Board × Bool
  | 0 => (b, true)
  | n + 1 =>
    let prev := applyBoardBytes b bd n
    if prev.2 then
      match pieceOfByte (bd.getD n 0) with
      | some p => (setCell prev.1 ((n / 8 : Nat) : Int) ((n % 8 : Nat) : Int) p,
          true)
      | none => (prev.1, false)
    else (prev.1, false)

/-- Bytes 68–71 as a little-endian unsigned 32-bit integer
(`struct.unpack('<I', board_data[68:72])`). -/
def snapMoveCount (bd : List Nat) : Nat :=
  bd.getD 68 0 + 256 * bd.getD 69 0 + 65536 * bd.getD 70 0
    + 16777216 * bd.getD 71 0

/-- `GameStateManager.update_board_state`: a snapshot shorter than 72 bytes
is ignored; otherwise the board (bytes 0–63), current player (64), counts
(65–66) and status (67 plus the counts) are overwritten in that order, and
only then is the move counter compared — a stale snapshot
(`incoming < local.move_count`) returns at that point, keeping the local
`move_count` but also keeping every overwrite already performed.  A
`ValueError` from `PieceType` aborts the remaining steps (caught by the
`except` block) with the earlier mutations kept. -/
def update_board_state (g : GameState) (bd : List Nat) : GameState :=
  if bd.length < 72 then g
  else
    let dec := applyBoardBytes g.board bd 64
    let g1 := { g with board := dec.1 }
    if ¬ dec.2 then g1
    else
      match pieceOfByte (bd.getD 64 0) with
      | none => g1
      | some cp =>
        let g2 := { g1 with
          current_player := cp
          black_count := bd.getD 65 0
          white_count := bd.getD 66 0 }
        let g3 := { g2 with status :=
          (if bd.getD 67 0 = 1 then
            (if g2.black_count > g2.white_count then GameStatus.BLACK_WIN
             else if g2.white_count > g2.black_count then GameStatus.WHITE_WIN
             else GameStatus.DRAW)
          else GameStatus.PLAYING) }
        if snapMoveCount bd < g.move_count then g3
        else { g3 with move_count := snapMoveCount bd }

/-! ## Field-preservation helpers for the game-over / turn machinery -/

theorem end_game_fields (g : GameState) :
    (end_game g).board = g.board ∧
    (end_game g).current_player = g.current_player ∧
    (end_game g).black_count = g.black_count ∧
    (end_game g).white_count = g.white_count ∧
    (end_game g).move_count = g.move_count ∧
    (end_game g).moves_history = g.moves_history :=
  ⟨rfl, rfl, rfl, rfl, rfl, rfl⟩

theorem switch_player_fields (g : GameState) :
    (switch_player g).board = g.board ∧
    (switch_player g).black_count = g.black_count ∧
    (switch_player g).white_count = g.white_count ∧
    (switch_player g).move_count = g.move_count ∧
    (switch_player g).moves_history = g.moves_history := by
  unfold switch_player
  split_ifs <;> simp [end_game]

theorem check_game_over_fields (g : GameState) :
    (check_game_over g).board = g.board ∧
    (check_game_over g).current_player = g.current_player ∧
    (check_game_over g).black_count = g.black_count ∧
    (check_game_over g).white_count = g.white_count ∧
    (check_game_over g).move_count = g.move_count ∧
    (check_game_over g).moves_history = g.moves_history := by
  unfold check_game_over
  split_ifs <;> simp [end_game]

/-- Counterexample to claim C3 as stated: `(3,2)` is in the claimed
first-move set but `is_valid_move` rejects it on the initial board. -/
theorem C3_counterexample_claimed_move_invalid :
    is_valid_move (start_new_game initial_game) 3 2 Piece.BLACK = false := by
  decide

/-- Claim C3 (amended): on the initial board of `start_new_game` (Black at
`(3,3)`,`(4,4)`; White at `(3,4)`,`(4,3)`) the cells `is_valid_move`
accepts for Black are exactly `(2,4)`, `(3,5)`, `(4,2)`, `(5,3)`. -/
theorem C3_amended_initial_moves :
    get_valid_moves (start_new_game initial_game) Piece.BLACK
      = [(2, 4), (3, 5), (4, 2), (5, 3)] := by
  decide

/-- Claim C8: a move rejected by `is_valid_move` makes `make_move` return
`False` with the whole `GameState` unchanged (the guard runs before any
mutation, and no exception path exists). -/
theorem C8_invalid_move_rejected (g : GameState) (row col : Int) (p : Piece)
    (h : is_valid_move g row col p = false) :
    make_move g row col p = (false, g) := by
  unfold make_move
  rw [if_pos (by simp [h])]

/-- Witness for C8: placing at the occupied-adjacent empty cell `(0,0)` on
the fresh board is invalid and leaves the state untouched. -/
theorem C8_invalid_move_witness :
    is_valid_move (start_new_game initial_game) 0 0 Piece.BLACK = false ∧
      make_move (start_new_game initial_game) 0 0 Piece.BLACK
        = (false, start_new_game initial_game) :=
  ⟨by decide, C8_invalid_move_rejected _ 0 0 _ (by decide)⟩

/-- Claim C10: in cheat mode (`game_mode == 4`) any in-bounds empty cell is
a valid move regardless of status; making it returns `True`, places the
piece, flips nothing (`flipped_count = 0`, all other cells untouched),
keeps the current player and bumps `move_count` by one. -/
theorem C10_cheat_mode_free_placement (g : GameState) (row col : Int)
    (p : Piece) (h4 : g.game_mode = 4) (hrow : 0 ≤ row ∧ row < 8)
    (hcol : 0 ≤ col ∧ col < 8) (he : g.board row col = Piece.EMPTY) :
    is_valid_move g row col p = true ∧
    (make_move g row col p).1 = true ∧
    (make_move g row col p).2.board row col = p ∧
    (∀ r' c' : Int, ¬(r' = row ∧ c' = col) →
      (make_move g row col p).2.board r' c' = g.board r' c') ∧
    (make_move g row col p).2.moves_history
      = g.moves_history ++ [⟨row, col, p, 0⟩] ∧
    (make_move g row col p).2.current_player = g.current_player ∧
    (make_move g row col p).2.move_count = g.move_count + 1 := by
  have hv : is_valid_move g row col p = true := by
    unfold is_valid_move
    rw [if_neg (by tauto), if_neg (by simp [he]), if_pos h4]
  have hmm : make_move g row col p
      = (true, check_game_over (update_piece_counts { g with
          board := setCell g.board row col p
          moves_history := g.moves_history ++ [⟨row, col, p, 0⟩]
          move_count := g.move_count + 1 })) := by
    unfold make_move
    rw [if_neg (by simp [hv])]
    simp only [h4, ne_eq, not_true_eq_false, if_false, ite_false]
  obtain ⟨hb, hcp, _, _, hmc, hmh⟩ := check_game_over_fields
    (update_piece_counts { g with
      board := setCell g.board row col p
      moves_history := g.moves_history ++ [⟨row, col, p, 0⟩]
      move_count := g.move_count + 1 })
  refine ⟨hv, by rw [hmm], ?_, ?_, ?_, ?_, ?_⟩
  · rw [hmm]; show (check_game_over _).board row col = p
    rw [hb]; simp [update_piece_counts, setCell]
  · intro r' c' hne
    rw [hmm]; show (check_game_over _).board r' c' = g.board r' c'
    rw [hb]; simp only [update_piece_counts, setCell]
    rw [if_neg hne]
  · rw [hmm]; show (check_game_over _).moves_history = _
    rw [hmh]; rfl
  · rw [hmm]; show (check_game_over _).current_player = _
    rw [hcp]; rfl
  · rw [hmm]; show (check_game_over _).move_count = _
    rw [hmc]; rfl

/-- A cheat-mode state for the C10 witness: the standard opening position
with `game_mode` set to 4. -/
def cheat_game : GameState :=
  { start_new_game initial_game with game_mode := 4 }

/-- Witness for C10: free placement of a White piece at `(0,0)` in cheat
mode (the `∀`-clause instantiated at the untouched cell `(5,5)`). -/
theorem C10_cheat_mode_witness :
    is_valid_move cheat_game 0 0 Piece.WHITE = true ∧
    (make_move cheat_game 0 0 Piece.WHITE).1 = true ∧
    (make_move cheat_game 0 0 Piece.WHITE).2.board 0 0 = Piece.WHITE ∧
    (make_move cheat_game 0 0 Piece.WHITE).2.board 5 5 = cheat_game.board 5 5 ∧
    (make_move cheat_game 0 0 Piece.WHITE).2.moves_history
      = cheat_game.moves_history ++ [⟨0, 0, Piece.WHITE, 0⟩] ∧
    (make_move cheat_game 0 0 Piece.WHITE).2.current_player
      = cheat_game.current_player ∧
    (make_move cheat_game 0 0 Piece.WHITE).2.move_count
      = cheat_game.move_count + 1 := by
  obtain ⟨h1, h2, h3, h4, h5, h6, h7⟩ := C10_cheat_mode_free_placement
    cheat_game 0 0 Piece.WHITE (by decide) (by decide) (by decide) (by decide)
  exact ⟨h1, h2, h3, h4 5 5 (by decide), h5, h6, h7⟩

/-! ## Piece-count invariant (C5) -/

/-- The count invariant: the stored counters match a recount of the board
(`_update_piece_counts` run on the same board would be a no-op). -/
def countsOK (g : GameState) : Prop :=
  g.black_count = countPieces g.board Piece.BLACK ∧
  g.white_count = countPieces g.board Piece.WHITE

/-- How many of a snapshot's 64 board bytes equal `v`. -/
def snapCount (bd : List Nat) (v : Nat) : Nat :=
  ((List.range 64).filter (fun i => bd.getD i 0 = v)).length

theorem countsOK_update_piece_counts (g : GameState) :
    countsOK (update_piece_counts g) := ⟨rfl, rfl⟩

theorem countsOK_switch_player (g : GameState) (h : countsOK g) :
    countsOK (switch_player g) := by
  obtain ⟨hb, hbl, hw, _, _⟩ := switch_player_fields g
  exact ⟨by rw [hbl, hb]; exact h.1, by rw [hw, hb]; exact h.2⟩

theorem countsOK_check_game_over (g : GameState) (h : countsOK g) :
    countsOK (check_game_over g) := by
  obtain ⟨hb, _, hbl, hw, _, _⟩ := check_game_over_fields g
  exact ⟨by rw [hbl, hb]; exact h.1, by rw [hw, hb]; exact h.2⟩

theorem pieceOfByte_isSome (v : Nat) (h : v < 3) :
    ∃ p, pieceOfByte v = some p := by
  unfold pieceOfByte
  split_ifs <;> first | exact ⟨_, rfl⟩ | omega

/-- Cell/index bijection: two indices below 64 with the same `(div 8, mod 8)`
pair are equal. -/
theorem cell_index_inj (m n : Nat)
    (hdiv : ((m / 8 : Nat) : Int) = ((n / 8 : Nat) : Int))
    (hmod : ((m % 8 : Nat) : Int) = ((n % 8 : Nat) : Int)) : m = n := by
  have h1 : m / 8 = n / 8 := Int.ofNat_inj.mp hdiv
  have h2 : m % 8 = n % 8 := Int.ofNat_inj.mp hmod
  have := Nat.div_add_mod m 8
  have := Nat.div_add_mod n 8
  omega

/-- Characterization of the board-decoding loop when every byte is a valid
`PieceType` value: it succeeds, each processed cell holds its decoded byte,
and every other cell is untouched. -/
theorem applyBoardBytes_spec (b : Board) (bd : List Nat) :
    ∀ n, (∀ i, i < n → bd.getD i 0 < 3) →
      (applyBoardBytes b bd n).2 = true ∧
      (∀ m, m < n → pieceOfByte (bd.getD m 0)
        = some (cellAt (applyBoardBytes b bd n).1 m)) ∧
      (∀ r c : Int,
        (∀ m, m < n → ¬(r = ((m / 8 : Nat) : Int) ∧ c = ((m % 8 : Nat) : Int))) →
        (applyBoardBytes b bd n).1 r c = b r c) := by
  intro n
  induction n with
  | zero =>
    intro _
    exact ⟨rfl, fun m hm => absurd hm (by omega), fun r c _ => rfl⟩
  | succ n ih =>
    intro hv
    obtain ⟨hok, hcell, hout⟩ := ih (fun i hi => hv i (by omega))
    obtain ⟨p, hp⟩ := pieceOfByte_isSome (bd.getD n 0) (hv n (by omega))
    have hstep : applyBoardBytes b bd (n + 1)
        = (setCell (applyBoardBytes b bd n).1
            ((n / 8 : Nat) : Int) ((n % 8 : Nat) : Int) p, true) := by
      simp only [applyBoardBytes, hok, if_true, hp]
    refine ⟨by rw [hstep], ?_, ?_⟩
    · intro m hm
      rw [hstep]
      by_cases hmn : m = n
      · subst hmn
        rw [hp]
        simp [cellAt, setCell]
      · have := hcell m (by omega)
        rw [this]
        simp only [cellAt, setCell]
        rw [if_neg (fun hcell2 => hmn (cell_index_inj m n hcell2.1 hcell2.2))]
    · intro r c hr
      rw [hstep]
      simp only [setCell]
      rw [if_neg (hr n (by omega))]
      exact hout r c (fun m hm => hr m (by omega))

theorem countPieces_snapshot (b : Board) (bd : List Nat)
    (hv : ∀ i, i < 64 → bd.getD i 0 < 3) (p : Piece) (v : Nat)
    (hpv : ∀ w, w < 3 → (pieceOfByte w = some p ↔ w = v)) :
    countPieces (applyBoardBytes b bd 64).1 p = snapCount bd v := by
  unfold countPieces snapCount
  congr 1
  apply List.filter_congr
  intro n hn
  have hn64 : n < 64 := List.mem_range.mp hn
  have hcell := (applyBoardBytes_spec b bd 64 hv).2.1 n hn64
  have hb3 := hv n hn64
  have hiff : (cellAt (applyBoardBytes b bd 64).1 n = p) ↔ bd.getD n 0 = v := by
    constructor
    · intro hcp
      exact (hpv _ hb3).mp (by rw [hcell, hcp])
    · intro hbv
      have := (hpv _ hb3).mpr hbv
      rw [this] at hcell
      exact (Option.some_inj.mp hcell).symm
  exact decide_eq_decide.mpr hiff

/-- Any cell is exactly one of the three piece kinds, so the three filters
partition the cell indices. -/
theorem filter_partition_cells (b : Board) (l : List Nat) :
    (l.filter (fun n => cellAt b n = Piece.BLACK)).length
    + (l.filter (fun n => cellAt b n = Piece.WHITE)).length
    + (l.filter (fun n => cellAt b n = Piece.EMPTY)).length
    = l.length := by
  induction l with
  | nil => rfl
  | cons a t ih =>
    rcases hv : cellAt b a with _ | _ | _ <;>
      simp [List.filter_cons, hv, ih] <;> omega

/-- Claim C5 (amended): the stored counts match the board after
`start_new_game` (both the `GameState` and the manager version) and after
every accepted `make_move` — and then `black + white + empty = 64`.  After
`update_board_state` the counts are copied from snapshot bytes 65–66, so
the invariant holds exactly when those bytes agree with the recount of the
snapshot's own board bytes; an internally inconsistent snapshot breaks it
(see the counterexample). -/
theorem C5_amended_counts :
    (∀ g : GameState, countsOK (start_new_game g)
        ∧ countsOK (manager_start_new_game g)) ∧
    (∀ (g : GameState) (r c : Int) (p : Piece),
        (make_move g r c p).1 = true → countsOK (make_move g r c p).2) ∧
    (∀ g : GameState, countsOK g →
        g.black_count + g.white_count + countPieces g.board Piece.EMPTY = 64) ∧
    (∀ (g : GameState) (bd : List Nat), 72 ≤ bd.length →
        (∀ i, i < 65 → bd.getD i 0 < 3) →
        bd.getD 65 0 = snapCount bd 1 → bd.getD 66 0 = snapCount bd 2 →
        countsOK (update_board_state g bd)) := by
  refine ⟨?_, ?_, ?_, ?_⟩
  · intro g
    constructor
    · exact ⟨by show (2 : Nat) = countPieces start_board Piece.BLACK; decide,
        by show (2 : Nat) = countPieces start_board Piece.WHITE; decide⟩
    · by_cases hm : g.game_mode = 4
      · simp only [manager_start_new_game, hm, if_true]
        exact ⟨by show (0 : Nat)
              = countPieces (fun _ _ => Piece.EMPTY) Piece.BLACK; decide,
          by show (0 : Nat)
              = countPieces (fun _ _ => Piece.EMPTY) Piece.WHITE; decide⟩
      · simp only [manager_start_new_game, hm, if_false]
        exact ⟨by show (2 : Nat) = countPieces start_board Piece.BLACK; decide,
          by show (2 : Nat) = countPieces start_board Piece.WHITE; decide⟩
  · intro g r c p h
    by_cases hv : is_valid_move g r c p = true
    · unfold make_move
      rw [if_neg (by simp [hv])]
      apply countsOK_check_game_over
      dsimp only
      split_ifs with hmode
      · exact countsOK_switch_player _ (countsOK_update_piece_counts _)
      · exact countsOK_update_piece_counts _
    · exfalso
      unfold make_move at h
      rw [if_pos (by simp [hv])] at h
      simp at h
  · intro g h
    rw [h.1, h.2]
    have hpart := filter_partition_cells g.board (List.range 64)
    simp only [List.length_range] at hpart
    exact hpart
  · intro g bd hlen hv h65 h66
    have hv64 : ∀ i, i < 64 → bd.getD i 0 < 3 := fun i hi => hv i (by omega)
    have hok := (applyBoardBytes_spec g.board bd 64 hv64).1
    obtain ⟨cp, hcp⟩ := pieceOfByte_isSome (bd.getD 64 0) (hv 64 (by omega))
    have hblack := countPieces_snapshot g.board bd hv64 Piece.BLACK 1 (by decide)
    have hwhite := countPieces_snapshot g.board bd hv64 Piece.WHITE 2 (by decide)
    unfold update_board_state
    rw [if_neg (by omega)]
    dsimp only
    rw [hok]
    simp only [not_true_eq_false, if_false, ite_false, hcp]
    split_ifs <;>
      exact ⟨by
          show bd.getD 65 0
            = countPieces (applyBoardBytes g.board bd 64).1 Piece.BLACK
          rw [h65, hblack],
        by
          show bd.getD 66 0
            = countPieces (applyBoardBytes g.board bd 64).1 Piece.WHITE
          rw [h66, hwhite]⟩

/-- An internally inconsistent snapshot: empty board bytes, but the
black-count byte (index 65) claims 5 pieces; move counter 0, player Black. -/
def inconsistent_snapshot : List Nat :=
  List.replicate 64 0 ++ [1, 5, 0, 0, 0, 0, 0, 0]

/-- Counterexample to claim C5 as stated: adopting an inconsistent snapshot
leaves `black_count = 5` over an all-empty board, breaking
`black + white + empty = 64` (it becomes 69). -/
theorem C5_counterexample_inconsistent_snapshot :
    (update_board_state (start_new_game initial_game)
        inconsistent_snapshot).black_count = 5 ∧
    countPieces (update_board_state (start_new_game initial_game)
        inconsistent_snapshot).board Piece.BLACK = 0 ∧
    (update_board_state (start_new_game initial_game)
          inconsistent_snapshot).black_count
      + (update_board_state (start_new_game initial_game)
          inconsistent_snapshot).white_count
      + countPieces (update_board_state (start_new_game initial_game)
          inconsistent_snapshot).board Piece.EMPTY ≠ 64 := by
  refine ⟨?_, ?_, ?_⟩ <;> decide

/-- A well-formed, internally consistent snapshot of the standard opening
position (2 Black, 2 White, Black to move, move counter 0). -/
def opening_snapshot : List Nat :=
  List.replicate 27 0 ++ [1, 2] ++ List.replicate 6 0 ++ [2, 1]
    ++ List.replicate 27 0 ++ [1, 2, 2, 0, 0, 0, 0, 0]

/-- Witness for the amended C5, instantiating all four parts at concrete
states: the fresh game, the cheat-mode manager reset, the accepted opening
move `(2,4)`, the `64`-sum consequence, and adoption of a consistent
snapshot. -/
theorem C5_amended_counts_witness :
    countsOK (start_new_game initial_game) ∧
    countsOK (manager_start_new_game { initial_game with game_mode := 4 }) ∧
    countsOK (make_move (start_new_game initial_game) 2 4 Piece.BLACK).2 ∧
    (start_new_game initial_game).black_count
      + (start_new_game initial_game).white_count
      + countPieces (start_new_game initial_game).board Piece.EMPTY = 64 ∧
    countsOK (update_board_state initial_game opening_snapshot) :=
  ⟨(C5_amended_counts.1 (start_new_game initial_game)).1,
    (C5_amended_counts.1 { initial_game with game_mode := 4 }).2,
    C5_amended_counts.2.1 (start_new_game initial_game) 2 4 Piece.BLACK
      (by decide),
    C5_amended_counts.2.2.1 (start_new_game initial_game)
      ((C5_amended_counts.1 (start_new_game initial_game)).1),
    C5_amended_counts.2.2.2 initial_game opening_snapshot (by decide)
      (by decide) (by decide) (by decide)⟩

/-! ## Stale-snapshot reconciliation (C1) -/

/-- A 72-byte all-zero snapshot: empty board, player byte 0, counts 0,
not ended, move counter 0 — stale against any state with `move_count ≥ 1`. -/
def stale_snapshot : List Nat := List.replicate 72 0

/-- The local authoritative state for C1: a fresh game after Black's
opening move `(2,4)`, so `move_count = 1`. -/
def c1_local_state : GameState :=
  (make_move (start_new_game initial_game) 2 4 Piece.BLACK).2

/-- Claim C1 is a code bug (evaluated at the failing input):
`update_board_state` receives a snapshot whose move counter 0 is strictly
below the local `move_count = 1`, takes the rejection path — and the
resulting state nevertheless differs from the local one everywhere except
`move_count`: the board was wiped, the current player became the invalid
`EMPTY`, and the counts were zeroed, because the source overwrites all of
them before performing the staleness comparison. -/
theorem C1_stale_snapshot_still_overwrites :
    snapMoveCount stale_snapshot < c1_local_state.move_count ∧
    (update_board_state c1_local_state stale_snapshot).move_count
      = c1_local_state.move_count ∧
    c1_local_state.board 3 3 = Piece.BLACK ∧
    (update_board_state c1_local_state stale_snapshot).board 3 3
      = Piece.EMPTY ∧
    c1_local_state.black_count = 4 ∧
    (update_board_state c1_local_state stale_snapshot).black_count = 0 ∧
    c1_local_state.current_player = Piece.WHITE ∧
    (update_board_state c1_local_state stale_snapshot).current_player
      = Piece.EMPTY := by
  refine ⟨?_, ?_, ?_, ?_, ?_, ?_, ?_, ?_⟩ <;> decide

end Othello
